import Mathlib

/-!
# Verification of the queued business scorer

A shallow embedding of `python_orchestrator/queued_scorer.py` (the
`orchestrator-advanced` core): the `ScoringJob` data model with its
serialization, the Redis-backed job store and FIFO queue, the worker's
`_process_job` routine, and the threshold-based scoring functions.

Modelling conventions:
* Python floats are embedded as exact rationals (`ℚ`); the scoring tables
  and weights are small decimal constants, so this is the intended
  arithmetic.
* Python's `round(x, 2)` is embedded as rounding half-up on exact
  rationals (`round2`); every value the claims touch is away from a
  half-cent midpoint, where all round-to-nearest variants agree.
* Exceptions are embedded as `Except String`; a raising scoring function
  is a function returning `Except.error msg`.
* Redis `setex`/`get` become updates/lookups of a map from keys to
  (document, ttl) pairs; `lpush`/`brpop` become head-insert and
  tail-remove on a list of ids (`brpop` on an empty list returns `none`,
  the timeout sentinel).
* `datetime` values are naive timestamps (the code only produces
  `datetime.utcnow()`, which is naive); `isoformat`/`fromisoformat` are
  embedded as the `YYYY-MM-DDTHH:MM:SS[.ffffff]` rendering and its parse.
-/

namespace QueuedScorer

/-- Rounding to two decimal places on exact rationals, embedding Python's
`round(x, 2)` (half-up on exact values; see the file header note). -/
def round2 (x : ℚ) : ℚ := (⌊x * 100 + 1/2⌋ : ℤ) / 100

/-- The `business_data` payload: the named fields the scoring code reads
with `.get(key, default)`. Absent keys are `none`. -/
structure BusinessData where
  name : Option String := none
  monthly_revenue : Option ℚ := none
  monthly_profit : Option ℚ := none
  growth_rate : Option ℚ := none
  market_size : Option ℚ := none
  industry : Option String := none
  years_operated : Option ℚ := none
deriving DecidableEq, Repr

/-- `QueuedScorer._score_revenue`: threshold table on monthly revenue. -/
def score_revenue (revenue : ℚ) (profit : ℚ) : ℚ :=
  if revenue < 1000 then 20
  else if revenue < 5000 then 40
  else if revenue < 15000 then 60
  else if revenue < 50000 then 80
  else 95

/-- `QueuedScorer._score_growth`: threshold table on growth rate. -/
def score_growth (growth_rate : ℚ) : ℚ :=
  if growth_rate < 0 then 10
  else if growth_rate < 5 then 30
  else if growth_rate < 15 then 60
  else if growth_rate < 30 then 80
  else 95

/-- The `industry_multipliers` dictionary lookup with default `1.0`
(`industry_multipliers.get(industry, 1.0)`). -/
def industry_multiplier (industry : String) : ℚ :=
  if industry = "SaaS" then 12/10
  else if industry = "E-commerce" then 11/10
  else if industry = "Marketplace" then 115/100
  else if industry = "Mobile App" then 1
  else if industry = "Web App" then 1
  else if industry = "Service" then 9/10
  else 1

/-- `QueuedScorer._score_market`: threshold table on market size, scaled
by the industry multiplier. -/
def score_market (market_size : ℚ) (industry : String) : ℚ :=
  let multiplier := industry_multiplier industry
  if market_size < 100000 then 30 * multiplier
  else if market_size < 1000000 then 50 * multiplier
  else if market_size < 10000000 then 70 * multiplier
  else 90 * multiplier

/-- `QueuedScorer._score_experience`: threshold table on years operated. -/
def score_experience (years_operated : ℚ) : ℚ :=
  if years_operated < 1 then 30
  else if years_operated < 3 then 50
  else if years_operated < 5 then 70
  else 85

/-- `QueuedScorer._generate_reasoning`: builds the reasoning list by
appending one sentence per sub-score group. -/
def generate_reasoning (revenue_score growth_score market_score experience_score : ℚ)
    (_business_data : BusinessData) : List String :=
  let reasoning : List String := []
  let reasoning := reasoning ++
    [if revenue_score ≥ 80 then "Strong revenue generation with healthy profitability"
     else if revenue_score ≥ 60 then "Moderate revenue with decent profit margins"
     else "Revenue needs improvement for better investment appeal"]
  let reasoning := reasoning ++
    [if growth_score ≥ 80 then "Excellent growth trajectory indicating market opportunity"
     else if growth_score ≥ 60 then "Steady growth with potential for acceleration"
     else "Growth is limited, may need strategic improvements"]
  let reasoning := reasoning ++
    [if market_score ≥ 80 then "Large addressable market with favorable industry dynamics"
     else if market_score ≥ 60 then "Decent market size with reasonable competition"
     else "Market opportunity may be limited"]
  let reasoning := reasoning ++
    [if experience_score ≥ 80 then "Proven track record with established operations"
     else if experience_score ≥ 60 then "Some operational experience with growth potential"
     else "Newer operation requiring additional validation"]
  reasoning

/-- The result dictionary of `_score_business`. -/
structure ScoreData where
  score : ℚ
  reasoning : List String
deriving DecidableEq, Repr

/-- `QueuedScorer._score_business`: extract the metrics with defaults,
compute the four sub-scores, the weighted overall score rounded to two
decimals, and the reasoning. -/
def score_business (business_data : BusinessData) : ScoreData :=
  let monthly_revenue := business_data.monthly_revenue.getD 0
  let monthly_profit := business_data.monthly_profit.getD 0
  let growth_rate := business_data.growth_rate.getD 0
  let market_size := business_data.market_size.getD 0
  let industry := business_data.industry.getD "General"
  let years_operated := business_data.years_operated.getD 0
  let revenue_score := score_revenue monthly_revenue monthly_profit
  let growth_score := score_growth growth_rate
  let market_score := score_market market_size industry
  let experience_score := score_experience years_operated
  let overall_score :=
    revenue_score * (3/10) +
    growth_score * (25/100) +
    market_score * (25/100) +
    experience_score * (2/10)
  let reasoning := generate_reasoning
    revenue_score growth_score market_score experience_score business_data
  { score := round2 overall_score, reasoning := reasoning }

/-- The sample business of the spec scenario (`SaaS Company A`). -/
def sampleBusiness : BusinessData :=
  { name := some "SaaS Company A"
    monthly_revenue := some 25000
    monthly_profit := some 15000
    growth_rate := some 25
    market_size := some 50000000
    industry := some "SaaS"
    years_operated := some 3 }

/-- The sentence `_generate_reasoning` emits for the revenue sub-score. -/
def revenue_sentence (s : ℚ) : String :=
  if s ≥ 80 then "Strong revenue generation with healthy profitability"
  else if s ≥ 60 then "Moderate revenue with decent profit margins"
  else "Revenue needs improvement for better investment appeal"

/-- The sentence `_generate_reasoning` emits for the growth sub-score. -/
def growth_sentence (s : ℚ) : String :=
  if s ≥ 80 then "Excellent growth trajectory indicating market opportunity"
  else if s ≥ 60 then "Steady growth with potential for acceleration"
  else "Growth is limited, may need strategic improvements"

/-- The sentence `_generate_reasoning` emits for the market sub-score. -/
def market_sentence (s : ℚ) : String :=
  if s ≥ 80 then "Large addressable market with favorable industry dynamics"
  else if s ≥ 60 then "Decent market size with reasonable competition"
  else "Market opportunity may be limited"

/-- The sentence `_generate_reasoning` emits for the experience sub-score. -/
def experience_sentence (s : ℚ) : String :=
  if s ≥ 80 then "Proven track record with established operations"
  else if s ≥ 60 then "Some operational experience with growth potential"
  else "Newer operation requiring additional validation"

/-- Redis `LPUSH`: insert at the head of the list (`submit_job` enqueues
job ids with `lpush`). -/
def lpush (id : String) (q : List String) : List String := id :: q

/-- Redis `BRPOP` with timeout: pop from the tail; on an empty list the
timeout elapses and the sentinel `none` is returned, no error is raised
(`start_worker` dequeues with `brpop(queue_key, timeout=1)`). -/
def brpop (q : List String) : Option (String × List String) :=
  match q.getLast? with
  | none => none
  | some x => some (x, q.dropLast)

/-- Enqueue a batch of ids in order, as successive `submit_job` calls do. -/
def enqueueAll (ids : List String) : List String :=
  ids.foldl (fun q id => lpush id q) []

/-- Repeatedly `brpop` until the queue reports empty, collecting ids in
dequeue order: the order a single-consumer worker loop sees. The fuel
argument bounds the iteration count by the queue length. -/
def dequeueAllAux : Nat → List String → List String
  | 0, _ => []
  | fuel + 1, q =>
    match brpop q with
    | none => []
    | some (x, q') => x :: dequeueAllAux fuel q'

/-- Drain the whole queue through `brpop`. -/
def dequeueAll (q : List String) : List String := dequeueAllAux q.length q

/-- A naive `datetime` value (the code only produces `datetime.utcnow()`,
which carries no timezone). -/
structure DateTime where
  year : Nat
  month : Nat
  day : Nat
  hour : Nat
  minute : Nat
  second : Nat
  microsecond : Nat
deriving DecidableEq, Repr

/-- Big-endian decimal digit characters of `n` (empty for 0); the fuel
argument bounds the digit count and exceeds it whenever `n < fuel`. -/
def renderNatAux : Nat → Nat → List Char
  | 0, _ => []
  | fuel + 1, n =>
    if n = 0 then []
    else renderNatAux fuel (n / 10) ++ [Char.ofNat (48 + n % 10)]

/-- Decimal digit characters of `n` (`"0"` for 0). -/
def renderNat (n : Nat) : List Char :=
  if n = 0 then ['0'] else renderNatAux (n + 1) n

/-- Left-pad with `'0'` to width `k`, as `%02d`-style formatting does. -/
def padZeros (k : Nat) (l : List Char) : List Char :=
  List.replicate (k - l.length) '0' ++ l

/-- The numeric value of a digit character. -/
def digitVal (c : Char) : Nat := c.toNat - 48

/-- The number denoted by a big-endian string of digit characters. -/
def valOfDigits (l : List Char) : Nat :=
  l.foldl (fun a c => 10 * a + digitVal c) 0

/-- Consume a maximal run of leading digits, returning its value and the
unconsumed remainder. -/
def parseNat (cs : List Char) : Nat × List Char :=
  (valOfDigits (cs.takeWhile Char.isDigit), cs.dropWhile Char.isDigit)

/-- `datetime.isoformat()` on a naive value:
`YYYY-MM-DDTHH:MM:SS` followed by `.ffffff` exactly when the microsecond
field is non-zero. -/
def isoformat (t : DateTime) : String :=
  String.mk (
    padZeros 4 (renderNat t.year) ++ '-' ::
    (padZeros 2 (renderNat t.month) ++ '-' ::
    (padZeros 2 (renderNat t.day) ++ 'T' ::
    (padZeros 2 (renderNat t.hour) ++ ':' ::
    (padZeros 2 (renderNat t.minute) ++ ':' ::
    (padZeros 2 (renderNat t.second) ++
      (if t.microsecond = 0 then []
       else '.' :: padZeros 6 (renderNat t.microsecond))))))))

/-- `datetime.fromisoformat` on the naive strings `isoformat` produces:
parse the six dash/colon-separated fields, then the optional `.ffffff`
microsecond fraction. -/
def fromisoformat (s : String) : DateTime :=
  let p1 := parseNat s.data
  let p2 := parseNat (p1.2.drop 1)
  let p3 := parseNat (p2.2.drop 1)
  let p4 := parseNat (p3.2.drop 1)
  let p5 := parseNat (p4.2.drop 1)
  let p6 := parseNat (p5.2.drop 1)
  let us := match p6.2 with
    | '.' :: rest => (parseNat rest).1
    | _ => 0
  ⟨p1.1, p2.1, p3.1, p4.1, p5.1, p6.1, us⟩

/-- Python `str.replace('Z', '+00:00')`: substitute every occurrence. -/
def pyReplaceZ : List Char → List Char
  | [] => []
  | c :: rest =>
    if c = 'Z' then '+' :: '0' :: '0' :: ':' :: '0' :: '0' :: pyReplaceZ rest
    else c :: pyReplaceZ rest

/-- `from_dict`'s timestamp decoding:
`datetime.fromisoformat(value.replace('Z', '+00:00'))`. -/
def parse_timestamp (s : String) : DateTime :=
  fromisoformat (String.mk (pyReplaceZ s.data))

/-- The `ScoringJob` dataclass. Field defaults mirror the dataclass
defaults; `__post_init__` is `post_init` below. -/
structure ScoringJob where
  id : String
  business_data : BusinessData
  status : String := "pending"
  score : Option ℚ := none
  reasoning : Option (List String) := none
  error : Option String := none
  created_at : Option DateTime := none
  completed_at : Option DateTime := none
deriving DecidableEq, Repr

/-- `ScoringJob.__post_init__`: replace a falsy (empty) id with a fresh
uuid and a missing `created_at` with the current time. `fresh_id` and
`now` stand for the ambient `uuid.uuid4()` and `datetime.utcnow()`. -/
def post_init (fresh_id : String) (now : DateTime) (j : ScoringJob) : ScoringJob :=
  let j := if j.id = "" then { j with id := fresh_id } else j
  if j.created_at.isNone then { j with created_at := some now } else j

/-- The flat document `ScoringJob.to_dict` produces (and that is stored
as JSON in Redis): same fields, timestamps rendered as ISO strings. -/
structure JobDict where
  id : String
  business_data : BusinessData
  status : String
  score : Option ℚ
  reasoning : Option (List String)
  error : Option String
  created_at : Option String
  completed_at : Option String
deriving DecidableEq, Repr

/-- `ScoringJob.to_dict`: `asdict` with the two datetime fields converted
to strings when present (`None` stays `None`). -/
def ScoringJob.to_dict (j : ScoringJob) : JobDict :=
  { id := j.id
    business_data := j.business_data
    status := j.status
    score := j.score
    reasoning := j.reasoning
    error := j.error
    created_at := j.created_at.map isoformat
    completed_at := j.completed_at.map isoformat }

/-- `ScoringJob.from_dict`: parse the timestamp strings when present,
then construct the dataclass (running `__post_init__`). -/
def ScoringJob.from_dict (fresh_id : String) (now : DateTime) (d : JobDict) : ScoringJob :=
  post_init fresh_id now
    { id := d.id
      business_data := d.business_data
      status := d.status
      score := d.score
      reasoning := d.reasoning
      error := d.error
      created_at := d.created_at.map parse_timestamp
      completed_at := d.completed_at.map parse_timestamp }

/-- The Redis key-value store: each key holds a job document together
with its remaining time-to-live in seconds. -/
abbrev Store := String → Option (JobDict × Nat)

/-- Redis `SETEX key ttl value`: store the value and (re)set its TTL. -/
def setex (key : String) (ttl : Nat) (val : JobDict) (store : Store) : Store :=
  fun k => if k = key then some (val, ttl) else store k

/-- The environment-sourced configuration of `QueuedScorer.__init__`. -/
structure Config where
  queue_name : String
  max_concurrent_jobs : Nat
  job_timeout : Nat
  retry_attempts : Nat

/-- `QueuedScorer._update_job`: `setex(f"job:{id}", job_timeout * 2, json)`. -/
def update_job (cfg : Config) (job : ScoringJob) (store : Store) : Store :=
  setex ("job:" ++ job.id) (cfg.job_timeout * 2) job.to_dict store

/-- `QueuedScorer.submit_job`: construct a pending job with a fresh uuid
(`new_id` stands for the `uuid.uuid4()` result, `now` for `utcnow()`),
store it under `job:{id}` with TTL `job_timeout * 2`, `lpush` its id onto
the queue, and return the id. -/
def submit_job (cfg : Config) (new_id : String) (now : DateTime)
    (business_data : BusinessData) (store : Store) (queue : List String) :
    String × Store × List String :=
  let job := post_init new_id now { id := new_id, business_data := business_data }
  let store := setex ("job:" ++ job.id) (cfg.job_timeout * 2) job.to_dict store
  let queue := lpush job.id queue
  (job.id, store, queue)

/-- `QueuedScorer.get_job_status`: read `job:{id}` and deserialize, or
return `none` when the key is absent. -/
def get_job_status (fresh_id : String) (now : DateTime) (store : Store)
    (job_id : String) : Option ScoringJob :=
  (store ("job:" ++ job_id)).map (fun e => ScoringJob.from_dict fresh_id now e.1)

/-- One observable step of `_process_job`: a persisted store write or the
invocation of the scoring function. -/
inductive Event where
  | putJob (job : ScoringJob)
  | scoreCall (business_data : BusinessData)
deriving DecidableEq, Repr

/-- `QueuedScorer._process_job`: mark the job `processing` and persist,
invoke the scoring function, record either the completed result or the
caught exception message, and persist again (the `finally` block). The
returned trace lists the store writes and the scoring call in execution
order; exceptions from the scoring function are captured in the
`Except.error` branch and never escape (the function is total). -/
def process_job (cfg : Config) (score_fn : BusinessData → Except String ScoreData)
    (now : DateTime) (job : ScoringJob) (store : Store) :
    ScoringJob × Store × List Event :=
  let job1 := { job with status := "processing" }
  let store1 := update_job cfg job1 store
  match score_fn job.business_data with
  | Except.ok score_data =>
    let job2 := { job1 with
      score := some score_data.score
      reasoning := some score_data.reasoning
      status := "completed"
      completed_at := some now }
    (job2, update_job cfg job2 store1,
      [Event.putJob job1, Event.scoreCall job.business_data, Event.putJob job2])
  | Except.error e =>
    let job2 := { job1 with
      status := "failed"
      error := some e
      completed_at := some now }
    (job2, update_job cfg job2 store1,
      [Event.putJob job1, Event.scoreCall job.business_data, Event.putJob job2])

/-- Replay a prefix of a `_process_job` trace against a store: store
writes persist the job, the scoring call touches nothing. -/
def applyEvent (cfg : Config) (store : Store) : Event → Store
  | Event.putJob j => update_job cfg j store
  | Event.scoreCall _ => store

/-- Replay a list of trace events in order. -/
def applyEvents (cfg : Config) (store : Store) (events : List Event) : Store :=
  events.foldl (applyEvent cfg) store

/-- A concrete completed job, for witness instantiations. -/
def sampleJob : ScoringJob :=
  { id := "job-1"
    business_data := sampleBusiness
    status := "completed"
    score := some 85
    reasoning := some ["Strong revenue generation with healthy profitability"]
    error := none
    created_at := some ⟨2025, 10, 12, 3, 4, 5, 123456⟩
    completed_at := some ⟨2025, 10, 12, 3, 4, 6, 0⟩ }

/-- A concrete freshly-submitted job, for witness instantiations. -/
def pendingJob : ScoringJob :=
  { id := "job-2"
    business_data := sampleBusiness
    created_at := some ⟨2025, 10, 12, 3, 4, 5, 0⟩ }

/-- A concrete configuration (the environment defaults), for witness
instantiations. -/
def testConfig : Config :=
  { queue_name := "business_scoring"
    max_concurrent_jobs := 5
    job_timeout := 300
    retry_attempts := 3 }

/-- A concrete timestamp, for witness instantiations. -/
def testNow : DateTime := ⟨2025, 10, 12, 3, 5, 0, 42⟩

/-- The store with no keys set. -/
def emptyStore : Store := fun _ => none

lemma score_revenue_bounds (r p : ℚ) :
    20 ≤ score_revenue r p ∧ score_revenue r p ≤ 95 := by
  unfold score_revenue; split_ifs <;> norm_num

lemma score_growth_bounds (g : ℚ) :
    10 ≤ score_growth g ∧ score_growth g ≤ 95 := by
  unfold score_growth; split_ifs <;> norm_num

lemma score_market_bounds (m : ℚ) (i : String) :
    27 ≤ score_market m i ∧ score_market m i ≤ 108 := by
  unfold score_market industry_multiplier
  split_ifs <;> norm_num

lemma score_experience_bounds (y : ℚ) :
    30 ≤ score_experience y ∧ score_experience y ≤ 85 := by
  unfold score_experience; split_ifs <;> norm_num

lemma round2_bounds {x : ℚ} (h1 : 85/4 ≤ x) (h2 : x ≤ 385/4) :
    85/4 ≤ round2 x ∧ round2 x ≤ 385/4 := by
  unfold round2
  constructor
  · have h : (2125 : ℤ) ≤ ⌊x * 100 + 1/2⌋ := Int.le_floor.mpr (by push_cast; linarith)
    have h' : (2125 : ℚ) ≤ (⌊x * 100 + 1/2⌋ : ℤ) := by exact_mod_cast h
    linarith
  · have h : ⌊x * 100 + 1/2⌋ ≤ ⌊(19251/2 : ℚ)⌋ :=
      Int.floor_le_floor (by linarith)
    have he : ⌊(19251/2 : ℚ)⌋ = 9625 := by norm_num [Int.floor_eq_iff]
    have h' : ((⌊x * 100 + 1/2⌋ : ℤ) : ℚ) ≤ 9625 := by
      rw [he] at h; exact_mod_cast h
    linarith

lemma foldl_lpush (ids : List String) (acc : List String) :
    ids.foldl (fun q id => lpush id q) acc = ids.reverse ++ acc := by
  induction ids generalizing acc with
  | nil => simp
  | cons a l ih => simp [lpush, ih]

lemma enqueueAll_eq_reverse (ids : List String) : enqueueAll ids = ids.reverse := by
  simpa using foldl_lpush ids []

lemma dequeueAllAux_eq (fuel : Nat) :
    ∀ q : List String, q.length ≤ fuel → dequeueAllAux fuel q = q.reverse := by
  induction fuel with
  | zero =>
    intro q hq
    rw [List.length_eq_zero.mp (Nat.le_zero.mp hq)]
    rfl
  | succ fuel ih =>
    intro q hq
    rcases q.eq_nil_or_concat with rfl | ⟨l, x, rfl⟩
    · rfl
    · have hlen : l.length ≤ fuel := by simpa using hq
      simp [dequeueAllAux, brpop, ih l hlen]

lemma digitChar_isDigit : ∀ r < 10, (Char.ofNat (48 + r)).isDigit = true := by decide

lemma digitVal_digitChar : ∀ r < 10, digitVal (Char.ofNat (48 + r)) = r := by decide

lemma renderNatAux_digits (fuel : Nat) :
    ∀ n, ∀ c ∈ renderNatAux fuel n, c.isDigit = true := by
  induction fuel with
  | zero => intro n c hc; simp [renderNatAux] at hc
  | succ fuel ih =>
    intro n c hc
    by_cases hn : n = 0
    · simp [renderNatAux, hn] at hc
    · simp only [renderNatAux, if_neg hn, List.mem_append, List.mem_singleton] at hc
      rcases hc with hc | rfl
      · exact ih _ c hc
      · exact digitChar_isDigit (n % 10) (Nat.mod_lt n (by norm_num))

lemma renderNat_digits (n : Nat) : ∀ c ∈ renderNat n, c.isDigit = true := by
  intro c hc
  by_cases hn : n = 0
  · simp [renderNat, hn] at hc; subst hc; decide
  · rw [renderNat, if_neg hn] at hc
    exact renderNatAux_digits (n + 1) n c hc

lemma padZeros_digits (k : Nat) (l : List Char) (h : ∀ c ∈ l, c.isDigit = true) :
    ∀ c ∈ padZeros k l, c.isDigit = true := by
  intro c hc
  rw [padZeros, List.mem_append] at hc
  rcases hc with hc | hc
  · have := List.eq_of_mem_replicate hc; subst this; decide
  · exact h c hc

lemma foldl_renderNatAux (fuel : Nat) :
    ∀ n a, n < fuel →
      (renderNatAux fuel n).foldl (fun a c => 10 * a + digitVal c) a =
        a * 10 ^ (renderNatAux fuel n).length + n := by
  induction fuel with
  | zero => intro n a h; omega
  | succ fuel ih =>
    intro n a h
    by_cases hn : n = 0
    · simp [renderNatAux, hn]
    · have hdiv : n / 10 < fuel := by
        have h1 : n / 10 < n := Nat.div_lt_self (Nat.pos_of_ne_zero hn) (by norm_num)
        omega
      rw [renderNatAux, if_neg hn, List.foldl_append, List.length_append]
      rw [ih (n / 10) a hdiv]
      simp only [List.foldl_cons, List.foldl_nil, List.length_singleton]
      rw [digitVal_digitChar (n % 10) (Nat.mod_lt n (by norm_num))]
      rw [pow_succ]
      have := Nat.div_add_mod n 10
      ring_nf
      omega

lemma foldl_replicate_zero (k : Nat) (a : Nat) :
    (List.replicate k '0').foldl (fun a c => 10 * a + digitVal c) a = a * 10 ^ k := by
  induction k generalizing a with
  | zero => simp
  | succ k ih =>
    rw [List.replicate_succ, List.foldl_cons, ih]
    have : digitVal '0' = 0 := by decide
    rw [this, pow_succ]
    ring

lemma valOfDigits_padZeros_renderNat (k n : Nat) :
    valOfDigits (padZeros k (renderNat n)) = n := by
  rw [valOfDigits, padZeros, List.foldl_append, foldl_replicate_zero, Nat.zero_mul]
  by_cases hn : n = 0
  · subst hn; decide
  · rw [renderNat, if_neg hn, foldl_renderNatAux (n + 1) n 0 (Nat.lt_succ_self n)]
    simp

lemma takeWhile_append_all {p : Char → Bool} (l r : List Char)
    (h : ∀ c ∈ l, p c = true) :
    (l ++ r).takeWhile p = l ++ r.takeWhile p := by
  induction l with
  | nil => simp
  | cons a l ih =>
    have ha : p a = true := h a (List.mem_cons_self a l)
    simp only [List.cons_append, List.takeWhile_cons, ha, if_true]
    rw [ih (fun c hc => h c (List.mem_cons_of_mem a hc))]

lemma dropWhile_append_all {p : Char → Bool} (l r : List Char)
    (h : ∀ c ∈ l, p c = true) :
    (l ++ r).dropWhile p = r.dropWhile p := by
  induction l with
  | nil => simp
  | cons a l ih =>
    have ha : p a = true := h a (List.mem_cons_self a l)
    simp only [List.cons_append, List.dropWhile_cons, ha, if_true]
    exact ih (fun c hc => h c (List.mem_cons_of_mem a hc))

lemma parseNat_pad_render_cons (k n : Nat) (d : Char) (rs : List Char)
    (hd : d.isDigit = false) :
    parseNat (padZeros k (renderNat n) ++ d :: rs) = (n, d :: rs) := by
  have hdig := padZeros_digits k (renderNat n) (renderNat_digits n)
  rw [parseNat, takeWhile_append_all _ _ hdig, dropWhile_append_all _ _ hdig]
  rw [List.takeWhile_cons, List.dropWhile_cons, hd]
  simp only [Bool.false_eq_true, if_false, List.append_nil]
  rw [valOfDigits_padZeros_renderNat]

lemma parseNat_pad_render_nil (k n : Nat) :
    parseNat (padZeros k (renderNat n)) = (n, []) := by
  have hdig := padZeros_digits k (renderNat n) (renderNat_digits n)
  have h1 : padZeros k (renderNat n) = padZeros k (renderNat n) ++ [] := by simp
  rw [parseNat, h1, takeWhile_append_all _ _ hdig, dropWhile_append_all _ _ hdig]
  simp only [List.takeWhile_nil, List.dropWhile_nil, List.append_nil]
  rw [valOfDigits_padZeros_renderNat]

lemma fromisoformat_isoformat (t : DateTime) : fromisoformat (isoformat t) = t := by
  obtain ⟨y, mo, d, h, mi, s, us⟩ := t
  by_cases hus : us = 0
  · subst hus
    simp only [fromisoformat, isoformat, reduceIte, List.append_nil]
    rw [parseNat_pad_render_cons 4 y '-' _ (by decide)]
    simp only [List.drop_succ_cons, List.drop_zero]
    rw [parseNat_pad_render_cons 2 mo '-' _ (by decide)]
    simp only [List.drop_succ_cons, List.drop_zero]
    rw [parseNat_pad_render_cons 2 d 'T' _ (by decide)]
    simp only [List.drop_succ_cons, List.drop_zero]
    rw [parseNat_pad_render_cons 2 h ':' _ (by decide)]
    simp only [List.drop_succ_cons, List.drop_zero]
    rw [parseNat_pad_render_cons 2 mi ':' _ (by decide)]
    simp only [List.drop_succ_cons, List.drop_zero]
    rw [parseNat_pad_render_nil 2 s]
  · simp only [fromisoformat, isoformat, if_neg hus]
    rw [parseNat_pad_render_cons 4 y '-' _ (by decide)]
    simp only [List.drop_succ_cons, List.drop_zero]
    rw [parseNat_pad_render_cons 2 mo '-' _ (by decide)]
    simp only [List.drop_succ_cons, List.drop_zero]
    rw [parseNat_pad_render_cons 2 d 'T' _ (by decide)]
    simp only [List.drop_succ_cons, List.drop_zero]
    rw [parseNat_pad_render_cons 2 h ':' _ (by decide)]
    simp only [List.drop_succ_cons, List.drop_zero]
    rw [parseNat_pad_render_cons 2 mi ':' _ (by decide)]
    simp only [List.drop_succ_cons, List.drop_zero]
    rw [parseNat_pad_render_cons 2 s '.' _ (by decide)]
    simp only
    rw [parseNat_pad_render_nil 6 us]

lemma pyReplaceZ_eq_self (l : List Char) (h : ∀ c ∈ l, c ≠ 'Z') :
    pyReplaceZ l = l := by
  induction l with
  | nil => rfl
  | cons a l ih =>
    rw [pyReplaceZ, if_neg (h a (List.mem_cons_self a l))]
    rw [ih (fun c hc => h c (List.mem_cons_of_mem a hc))]

lemma isDigit_ne_Z {c : Char} (h : c.isDigit = true) : c ≠ 'Z' := by
  intro hc; subst hc; simp at h

lemma isoformat_no_Z (t : DateTime) : ∀ c ∈ (isoformat t).data, c ≠ 'Z' := by
  intro c hc
  simp only [isoformat, List.mem_append, List.mem_cons, List.mem_singleton] at hc
  rcases hc with hc | rfl | hc
  · exact isDigit_ne_Z (padZeros_digits _ _ (renderNat_digits _) c hc)
  · decide
  rcases hc with hc | rfl | hc
  · exact isDigit_ne_Z (padZeros_digits _ _ (renderNat_digits _) c hc)
  · decide
  rcases hc with hc | rfl | hc
  · exact isDigit_ne_Z (padZeros_digits _ _ (renderNat_digits _) c hc)
  · decide
  rcases hc with hc | rfl | hc
  · exact isDigit_ne_Z (padZeros_digits _ _ (renderNat_digits _) c hc)
  · decide
  rcases hc with hc | rfl | hc
  · exact isDigit_ne_Z (padZeros_digits _ _ (renderNat_digits _) c hc)
  · decide
  rcases hc with hc | hc
  · exact isDigit_ne_Z (padZeros_digits _ _ (renderNat_digits _) c hc)
  · by_cases hus : t.microsecond = 0
    · rw [if_pos hus] at hc; simp at hc
    · rw [if_neg hus] at hc
      rcases List.mem_cons.mp hc with rfl | hc
      · decide
      · exact isDigit_ne_Z (padZeros_digits _ _ (renderNat_digits _) c hc)

lemma parse_timestamp_isoformat (t : DateTime) :
    parse_timestamp (isoformat t) = t := by
  rw [parse_timestamp, pyReplaceZ_eq_self _ (isoformat_no_Z t)]
  have h : String.mk (isoformat t).data = isoformat t := rfl
  rw [h, fromisoformat_isoformat]

end QueuedScorer

namespace QueuedScorer

/-- C8: the spec scenario claims the sample business
`{monthly_revenue: 25000, monthly_profit: 15000, growth_rate: 25,
market_size: 50000000, industry: "SaaS", years_operated: 3}` yields
revenue 80, growth 95, market 90, experience 70 and the corresponding
rounded weighted sum. This is false: growth 25 falls in the `< 30`
bracket, which returns 80, and market 50000000 falls in the top bracket,
which returns `90 × 1.2 = 108` after the SaaS multiplier. -/
theorem c8_sample_scores_as_claimed_false :
    ¬ (score_revenue 25000 15000 = 80 ∧ score_growth 25 = 95 ∧
       score_market 50000000 "SaaS" = 90 ∧ score_experience 3 = 70 ∧
       (score_business sampleBusiness).score =
         round2 (80 * (3/10) + 95 * (25/100) + 90 * (25/100) + 70 * (2/10))) := by
  intro h
  have hg := h.2.1
  norm_num [score_growth] at hg

/-- C8 (amended): for the spec's sample business the sub-scores are
revenue 80, growth 80, market 108 (90 base × 1.2 SaaS multiplier),
experience 70, and the overall score equals the weighted sum
`0.3·80 + 0.25·80 + 0.25·108 + 0.2·70` rounded to 2 decimals, i.e. 85. -/
theorem c8_sample_scores :
    score_revenue 25000 15000 = 80 ∧ score_growth 25 = 80 ∧
    score_market 50000000 "SaaS" = 108 ∧ score_experience 3 = 70 ∧
    (score_business sampleBusiness).score =
      round2 (80 * (3/10) + 80 * (25/100) + 108 * (25/100) + 70 * (2/10)) ∧
    (score_business sampleBusiness).score = 85 := by
  norm_num [score_revenue, score_growth, score_market, score_experience,
    industry_multiplier, score_business, sampleBusiness, round2, Int.floor_eq_iff]

/-- C9: for every business-data payload the overall score lies between
21.25 (= 85/4) and 96.25 (= 385/4) inclusive: the extreme weighted sums
of the sub-score tables, the industry multiplier on the market score
included, and rounding to 2 decimals cannot leave the interval. -/
theorem c9_overall_score_bounds (bd : BusinessData) :
    85/4 ≤ (score_business bd).score ∧ (score_business bd).score ≤ 385/4 := by
  unfold score_business
  have hr := score_revenue_bounds (bd.monthly_revenue.getD 0) (bd.monthly_profit.getD 0)
  have hg := score_growth_bounds (bd.growth_rate.getD 0)
  have hm := score_market_bounds (bd.market_size.getD 0) (bd.industry.getD "General")
  have he := score_experience_bounds (bd.years_operated.getD 0)
  obtain ⟨hr1, hr2⟩ := hr
  obtain ⟨hg1, hg2⟩ := hg
  obtain ⟨hm1, hm2⟩ := hm
  obtain ⟨he1, he2⟩ := he
  exact round2_bounds (by linarith) (by linarith)

/-- C10: for every input, the reasoning list has exactly 4 entries — one
sentence determined by each of the revenue, growth, market and experience
sub-scores, in that order (the business-data argument is not consulted). -/
theorem c10_reasoning_four_sentences (r g m e : ℚ) (bd : BusinessData) :
    (generate_reasoning r g m e bd).length = 4 ∧
    generate_reasoning r g m e bd =
      [revenue_sentence r, growth_sentence g, market_sentence m, experience_sentence e] := by
  exact ⟨rfl, rfl⟩

/-- C4: the queue is FIFO — draining a queue built by enqueuing ids in
order through repeated `brpop` yields the ids in the same order (so an
id enqueued earlier is always dequeued earlier) — and `brpop` on an
empty queue returns the `none` sentinel rather than raising. -/
theorem c4_queue_fifo_and_empty_sentinel :
    (∀ ids : List String, dequeueAll (enqueueAll ids) = ids) ∧
    brpop [] = none := by
  constructor
  · intro ids
    unfold dequeueAll
    rw [enqueueAll_eq_reverse]
    rw [dequeueAllAux_eq ids.reverse.length ids.reverse le_rfl]
    exact List.reverse_reverse ids
  · rfl

/-- C6: serializing a `ScoringJob` with `to_dict` and parsing the
document back with `from_dict` yields the original job. The hypotheses
(non-empty id, non-null `created_at`) are exactly the invariants
`__post_init__` establishes at every construction, so they hold of every
job record the program can hold. -/
theorem c6_serialization_roundtrip (fresh_id : String) (now : DateTime)
    (j : ScoringJob) (hid : j.id ≠ "") (hca : j.created_at ≠ none) :
    ScoringJob.from_dict fresh_id now j.to_dict = j := by
  obtain ⟨id, bd, st, sc, rs, er, ca, co⟩ := j
  obtain ⟨t, rfl⟩ : ∃ t, ca = some t := by
    cases ca with
    | none => exact absurd rfl hca
    | some t => exact ⟨t, rfl⟩
  have hid' : id ≠ "" := hid
  cases co with
  | none =>
    simp [ScoringJob.to_dict, ScoringJob.from_dict, post_init, hid',
      parse_timestamp_isoformat]
  | some t2 =>
    simp [ScoringJob.to_dict, ScoringJob.from_dict, post_init, hid',
      parse_timestamp_isoformat]

/-- Witness for C6 at a concrete completed job with both timestamps. -/
theorem c6_witness :
    (sampleJob.id ≠ "" ∧ sampleJob.created_at ≠ none) ∧
    ScoringJob.from_dict "fresh" testNow sampleJob.to_dict = sampleJob := by
  refine ⟨⟨by decide, by decide⟩, ?_⟩
  exact c6_serialization_roundtrip "fresh" testNow sampleJob (by decide) (by decide)

/-- C1: when the scoring function raises, `_process_job` marks the job
`failed`, stores the exception message in `error`, stamps
`completed_at`, and persists the job (the `finally` write) under its key
with the usual TTL; the exception is caught inside `_process_job`, which
the embedding reflects by `process_job` being a total function. -/
theorem c1_scoring_error_isolated (cfg : Config)
    (score_fn : BusinessData → Except String ScoreData) (now : DateTime)
    (job : ScoringJob) (store : Store) (e : String)
    (h : score_fn job.business_data = Except.error e) :
    (process_job cfg score_fn now job store).1.status = "failed" ∧
    (process_job cfg score_fn now job store).1.error = some e ∧
    (process_job cfg score_fn now job store).1.completed_at = some now ∧
    (process_job cfg score_fn now job store).2.1 ("job:" ++ job.id) =
      some ((process_job cfg score_fn now job store).1.to_dict, cfg.job_timeout * 2) := by
  simp [process_job, h, update_job, setex]

/-- Witness for C1: a scoring function that always raises `"boom"`. -/
theorem c1_witness :
    ((fun _ : BusinessData => (Except.error "boom" : Except String ScoreData))
        pendingJob.business_data = Except.error "boom") ∧
    (process_job testConfig (fun _ => Except.error "boom") testNow pendingJob emptyStore).1.status
      = "failed" := by
  refine ⟨rfl, ?_⟩
  exact (c1_scoring_error_isolated testConfig (fun _ => Except.error "boom") testNow
    pendingJob emptyStore "boom" rfl).1

/-- C2: processing a job that is in its submitted shape (no score,
reasoning or error yet — the shape of every job the worker picks up)
ends with status exactly `completed` or `failed`, and exactly one result
set populated: score and reasoning with no error on `completed`, an
error with no score or reasoning on `failed`. -/
theorem c2_result_sets_exclusive (cfg : Config)
    (score_fn : BusinessData → Except String ScoreData) (now : DateTime)
    (job : ScoringJob) (store : Store)
    (h1 : job.score = none) (h2 : job.reasoning = none) (h3 : job.error = none) :
    ((process_job cfg score_fn now job store).1.status = "completed" ∨
     (process_job cfg score_fn now job store).1.status = "failed") ∧
    ((process_job cfg score_fn now job store).1.status = "completed" →
      (process_job cfg score_fn now job store).1.score ≠ none ∧
      (process_job cfg score_fn now job store).1.reasoning ≠ none ∧
      (process_job cfg score_fn now job store).1.error = none) ∧
    ((process_job cfg score_fn now job store).1.status = "failed" →
      (process_job cfg score_fn now job store).1.error ≠ none ∧
      (process_job cfg score_fn now job store).1.score = none ∧
      (process_job cfg score_fn now job store).1.reasoning = none) := by
  cases hsc : score_fn job.business_data with
  | ok sd => simp [process_job, hsc, h1, h2, h3]
  | error e => simp [process_job, hsc, h1, h2, h3]

/-- Witness for C2 at a pending job and the real scoring function. -/
theorem c2_witness :
    (pendingJob.score = none ∧ pendingJob.reasoning = none ∧ pendingJob.error = none) ∧
    ((process_job testConfig (fun bd => Except.ok (score_business bd)) testNow pendingJob
        emptyStore).1.status = "completed" ∨
     (process_job testConfig (fun bd => Except.ok (score_business bd)) testNow pendingJob
        emptyStore).1.status = "failed") := by
  refine ⟨⟨rfl, rfl, rfl⟩, ?_⟩
  exact (c2_result_sets_exclusive testConfig (fun bd => Except.ok (score_business bd))
    testNow pendingJob emptyStore rfl rfl rfl).1

/-- C3: `_process_job`'s first persisted store write marks the job
`processing` and happens strictly before the scoring call (events 0 and
1 of the trace); replaying only the events before the scoring call — the
store state a crash during scoring would leave behind — shows the job
stored with status `processing`. -/
theorem c3_processing_persisted_before_scoring (cfg : Config)
    (score_fn : BusinessData → Except String ScoreData) (now : DateTime)
    (job : ScoringJob) (store : Store) :
    (process_job cfg score_fn now job store).2.2.take 2 =
      [Event.putJob { job with status := "processing" },
       Event.scoreCall job.business_data] ∧
    applyEvents cfg store ((process_job cfg score_fn now job store).2.2.take 1)
        ("job:" ++ job.id) =
      some (ScoringJob.to_dict { job with status := "processing" }, cfg.job_timeout * 2) ∧
    (ScoringJob.to_dict { job with status := "processing" }).status = "processing" := by
  cases hsc : score_fn job.business_data with
  | ok sd =>
    refine ⟨?_, ?_, rfl⟩ <;>
      simp [process_job, hsc, applyEvents, applyEvent, update_job, setex]
  | error e =>
    refine ⟨?_, ?_, rfl⟩ <;>
      simp [process_job, hsc, applyEvents, applyEvent, update_job, setex]

/-- C5: `get_status` with the id returned by `submit` (with no
intervening writes) finds a job whose status is `pending` and whose
business data is the submitted payload. -/
theorem c5_submit_then_get_status (cfg : Config) (new_id : String) (now : DateTime)
    (bd : BusinessData) (store : Store) (queue : List String)
    (fresh_id : String) (now2 : DateTime) :
    ∃ j, get_job_status fresh_id now2 (submit_job cfg new_id now bd store queue).2.1
           (submit_job cfg new_id now bd store queue).1 = some j ∧
         j.status = "pending" ∧ j.business_data = bd := by
  refine ⟨ScoringJob.from_dict fresh_id now2
    (post_init new_id now { id := new_id, business_data := bd }).to_dict, ?_, ?_, ?_⟩
  · simp [get_job_status, submit_job, setex]
  · by_cases hid : new_id = "" <;>
      simp [ScoringJob.from_dict, ScoringJob.to_dict, post_init, hid]
  · by_cases hid : new_id = "" <;>
      simp [ScoringJob.from_dict, ScoringJob.to_dict, post_init, hid]

/-- C7: both write sites — the initial write of `submit_job` and
`_update_job` (used for every subsequent update) — store the job under
its key with TTL exactly `job_timeout * 2`, whatever the store held
before, so every write resets the TTL. -/
theorem c7_every_write_sets_double_timeout_ttl (cfg : Config) (new_id : String)
    (now : DateTime) (bd : BusinessData) (store : Store) (queue : List String)
    (job : ScoringJob) (st : Store) :
    (∃ d, (submit_job cfg new_id now bd store queue).2.1
            ("job:" ++ (submit_job cfg new_id now bd store queue).1) =
          some (d, cfg.job_timeout * 2)) ∧
    (∃ d, update_job cfg job st ("job:" ++ job.id) = some (d, cfg.job_timeout * 2)) := by
  constructor
  · exact ⟨(post_init new_id now { id := new_id, business_data := bd }).to_dict,
      by simp [submit_job, setex]⟩
  · exact ⟨job.to_dict, by simp [update_job, setex]⟩

end QueuedScorer
